import Mathlib

/-!
Verification of the tenant-isolation core of `go-multitenant`.

The development shallowly embeds the parts of the repository that the
claims are about:

* schema naming (`SchemaManager.GetSchemaName` in Go, and the SQL-side
  `get_tenant_schema_name` / `apply_tenant_migration` naming);
* the tenant identity resolver (`resolver.ValidateSubdomain`,
  `ExtractFromSubdomain`, `ExtractFromPath`, `ExtractFromHeader`,
  `ResolveTenant`);
* the connection router (`GetTenantConn`, `WithTenantTx`);
* schema lifecycle (`ProvisionTenant`, `SchemaManager.CreateTenantSchema`);
* the migration applier (`MigrationManager.ApplyMigration`,
  `RollbackMigration` plus the PL/pgSQL functions they call).

Go strings are modelled as `List Char`, machine errors as message
strings, the database as explicit state records, and fallible calls as
`Except`/environment records of step outcomes.
-/

namespace GoMT

/-- Go strings, modelled as lists of characters. -/
abbrev Str := List Char

/-- One byte. -/
abbrev Byte := Fin 256

/-- A tenant ID: a 16-byte UUID, as in `github.com/google/uuid`. -/
abbrev UUID := { l : List Byte // l.length = 16 }

/-- Lowercase hex digit character for a nibble (0-9, a-f), as produced by
Go's `uuid.UUID.String()`. -/
def hexDigit (n : Nat) : Char :=
  if n < 10 then Char.ofNat (48 + n) else Char.ofNat (87 + n)

/-- The two lowercase hex characters encoding one byte. -/
def byteHex (b : Byte) : Str :=
  [hexDigit (b.val / 16), hexDigit (b.val % 16)]

/-- Hex encoding of a byte list. -/
def hexBytes (bs : List Byte) : Str :=
  (bs.map byteHex).join

/-- Canonical string form of a UUID: 8-4-4-4-12 lowercase hex groups
separated by hyphens, i.e. Go's `uuid.UUID.String()`. -/
def uuidString (u : UUID) : Str :=
  let h := hexBytes u.val
  h.take 8 ++ ['-'] ++ (h.drop 8).take 4 ++ ['-'] ++ (h.drop 12).take 4
    ++ ['-'] ++ (h.drop 16).take 4 ++ ['-'] ++ h.drop 20

/-- Character-wise effect of `strings.ReplaceAll(s, "-", "_")`. -/
def replUnderscore (c : Char) : Char :=
  if c = '-' then '_' else c

/-- `strings.ReplaceAll(s, "-", "_")` on the UUID string (the pattern is a
single character, so it is a character map). -/
def replaceDashes (s : Str) : Str :=
  s.map replUnderscore

/-- Go `SchemaManager.GetSchemaName`: configured schema prefix followed by
the UUID string with hyphens replaced by underscores. -/
def getSchemaName (pre : Str) (u : UUID) : Str :=
  pre ++ replaceDashes (uuidString u)

/-- The default schema prefix `"tenant_"` (`NewSchemaManager` with empty
prefix). -/
def defaultPre : Str := "tenant_".data

/-- SQL-side schema name: `'tenant_' || tenant_uuid::TEXT` as computed by
the PL/pgSQL functions `get_tenant_schema_name`, `apply_tenant_migration`
and `rollback_tenant_migration` (the canonical UUID text keeps its
hyphens). -/
def sqlSchemaName (u : UUID) : Str :=
  "tenant_".data ++ uuidString u

/-- Numeric value of a lowercase hex digit character (decoder used only in
proofs). -/
def hexVal (c : Char) : Nat :=
  if 97 ≤ c.toNat then c.toNat - 87 else c.toNat - 48

/-- Decode a hex character string back into byte values. -/
def decodeHex : Str → List Nat
  | c1 :: c2 :: rest => (16 * hexVal c1 + hexVal c2) :: decodeHex rest
  | _ => []

/-- A character is a lowercase letter, a digit or an underscore. -/
def validIdentChar (c : Char) : Bool :=
  (97 ≤ c.toNat && c.toNat ≤ 122) || (48 ≤ c.toNat && c.toNat ≤ 57) || c == '_'

theorem hexVal_hexDigit : ∀ d : Fin 16, hexVal (hexDigit d.val) = d.val := by
  decide

theorem hexDigit_props : ∀ d : Fin 16,
    validIdentChar (hexDigit d.val) = true ∧
    hexDigit d.val ≠ '-' ∧ hexDigit d.val ≠ '_' := by
  decide

theorem decodeHex_hexBytes (bs : List Byte) :
    decodeHex (hexBytes bs) = bs.map Fin.val := by
  induction bs with
  | nil => rfl
  | cons b bs ih =>
    have hlt : b.val < 256 := b.isLt
    have h1 : hexVal (hexDigit (b.val / 16)) = b.val / 16 :=
      hexVal_hexDigit ⟨b.val / 16, by omega⟩
    have h2 : hexVal (hexDigit (b.val % 16)) = b.val % 16 :=
      hexVal_hexDigit ⟨b.val % 16, by omega⟩
    have hshape : hexBytes (b :: bs)
        = hexDigit (b.val / 16) :: hexDigit (b.val % 16) :: hexBytes bs := by
      simp [hexBytes, byteHex]
    rw [hshape, decodeHex, h1, h2, ih, List.map_cons]
    have : 16 * (b.val / 16) + b.val % 16 = b.val := by omega
    rw [this]

theorem mem_hexBytes {bs : List Byte} {c : Char} (hc : c ∈ hexBytes bs) :
    ∃ d : Fin 16, c = hexDigit d.val := by
  induction bs with
  | nil => simp [hexBytes] at hc
  | cons b bs ih =>
    have hshape : hexBytes (b :: bs)
        = hexDigit (b.val / 16) :: hexDigit (b.val % 16) :: hexBytes bs := by
      simp [hexBytes, byteHex]
    rw [hshape] at hc
    have hlt : b.val < 256 := b.isLt
    simp only [List.mem_cons] at hc
    rcases hc with hc | hc | hc
    · exact ⟨⟨b.val / 16, by omega⟩, hc⟩
    · exact ⟨⟨b.val % 16, by omega⟩, hc⟩
    · exact ih hc

theorem mem_uuidString {u : UUID} {c : Char} (hc : c ∈ uuidString u) :
    c = '-' ∨ ∃ d : Fin 16, c = hexDigit d.val := by
  unfold uuidString at hc
  simp only [List.mem_append, List.mem_singleton] at hc
  rcases hc with (((((((h | h) | h) | h) | h) | h) | h) | h) | h
  · exact Or.inr (mem_hexBytes (List.take_subset _ _ h))
  · exact Or.inl h
  · exact Or.inr (mem_hexBytes (List.drop_subset _ _ (List.take_subset _ _ h)))
  · exact Or.inl h
  · exact Or.inr (mem_hexBytes (List.drop_subset _ _ (List.take_subset _ _ h)))
  · exact Or.inl h
  · exact Or.inr (mem_hexBytes (List.drop_subset _ _ (List.take_subset _ _ h)))
  · exact Or.inl h
  · exact Or.inr (mem_hexBytes (List.drop_subset _ _ h))

theorem regroup (h : Str) :
    h.take 8 ++ (h.drop 8).take 4 ++ (h.drop 12).take 4 ++ (h.drop 16).take 4
      ++ h.drop 20 = h := by
  have e1 : (h.drop 8).drop 4 = h.drop 12 := by
    rw [List.drop_drop]
  have e2 : (h.drop 12).drop 4 = h.drop 16 := by
    rw [List.drop_drop]
  have e3 : (h.drop 16).drop 4 = h.drop 20 := by
    rw [List.drop_drop]
  calc h.take 8 ++ (h.drop 8).take 4 ++ (h.drop 12).take 4 ++ (h.drop 16).take 4
        ++ h.drop 20
      = h.take 8 ++ ((h.drop 8).take 4 ++ ((h.drop 12).take 4
        ++ ((h.drop 16).take 4 ++ (h.drop 16).drop 4))) := by
        rw [e3]; simp [List.append_assoc]
    _ = h.take 8 ++ ((h.drop 8).take 4 ++ ((h.drop 12).take 4 ++ (h.drop 12).drop 4)) := by
        rw [List.take_append_drop, e2]
    _ = h.take 8 ++ ((h.drop 8).take 4 ++ (h.drop 8).drop 4) := by
        rw [List.take_append_drop, e1]
    _ = h.take 8 ++ h.drop 8 := by rw [List.take_append_drop]
    _ = h := List.take_append_drop _ _

theorem map_repl_of_hex {l : Str} (hl : ∀ c ∈ l, c ≠ '-') :
    replaceDashes l = l := by
  unfold replaceDashes
  have : ∀ c ∈ l, replUnderscore c = c := by
    intro c hc
    simp [replUnderscore, hl c hc]
  calc l.map replUnderscore = l.map id := List.map_congr_left this
    _ = l := List.map_id l

theorem filter_of_no_underscore {l : Str} (hl : ∀ c ∈ l, c ≠ '_') :
    l.filter (fun c => c != '_') = l := by
  rw [List.filter_eq_self]
  intro c hc
  simpa using hl c hc

theorem hexBytes_no_dash_underscore (bs : List Byte) :
    ∀ c ∈ hexBytes bs, c ≠ '-' ∧ c ≠ '_' := by
  intro c hc
  obtain ⟨d, rfl⟩ := mem_hexBytes hc
  exact ⟨(hexDigit_props d).2.1, (hexDigit_props d).2.2⟩

theorem repl_filter (u : UUID) :
    (replaceDashes (uuidString u)).filter (fun c => c != '_') = hexBytes u.val := by
  have hhex := hexBytes_no_dash_underscore u.val
  have hmap : ∀ (l : Str), l ⊆ hexBytes u.val → replaceDashes l = l := by
    intro l hsub
    exact map_repl_of_hex (fun c hc => (hhex c (hsub hc)).1)
  have hfil : ∀ (l : Str), l ⊆ hexBytes u.val →
      l.filter (fun c => c != '_') = l := by
    intro l hsub
    exact filter_of_no_underscore (fun c hc => (hhex c (hsub hc)).2)
  have hdash : replaceDashes ['-'] = ['_'] := by
    simp [replaceDashes, replUnderscore]
  have hufil : (['_'] : Str).filter (fun c => c != '_') = [] := by decide
  unfold uuidString
  simp only [replaceDashes, List.map_append] at *
  rw [show ((['-'] : Str).map replUnderscore) = ['_'] from hdash]
  simp only [List.filter_append]
  rw [hmap _ (List.take_subset _ _),
      hmap _ (fun c hc => List.drop_subset _ _ (List.take_subset _ _ hc)),
      hmap _ (fun c hc => List.drop_subset _ _ (List.take_subset _ _ hc)),
      hmap _ (fun c hc => List.drop_subset _ _ (List.take_subset _ _ hc)),
      hmap _ (List.drop_subset _ _)]
  rw [hfil _ (List.take_subset _ _),
      hfil _ (fun c hc => List.drop_subset _ _ (List.take_subset _ _ hc)),
      hfil _ (fun c hc => List.drop_subset _ _ (List.take_subset _ _ hc)),
      hfil _ (fun c hc => List.drop_subset _ _ (List.take_subset _ _ hc)),
      hfil _ (List.drop_subset _ _)]
  rw [hufil]
  simp only [List.append_nil, List.nil_append]
  have := regroup (hexBytes u.val)
  simpa [List.append_assoc] using this

/-- Proof-side decoder for a schema name: strip the prefix, drop the
underscores, decode the hex bytes. -/
def recoverBytes (pre : Str) (s : Str) : List Nat :=
  decodeHex ((s.drop pre.length).filter (fun c => c != '_'))

theorem recover_getSchemaName (pre : Str) (u : UUID) :
    recoverBytes pre (getSchemaName pre u) = u.val.map Fin.val := by
  unfold recoverBytes getSchemaName
  rw [List.drop_left, repl_filter, decodeHex_hexBytes]

theorem getSchemaName_injective (pre : Str) :
    Function.Injective (getSchemaName pre) := by
  intro u v h
  have hrec := congrArg (recoverBytes pre) h
  rw [recover_getSchemaName, recover_getSchemaName] at hrec
  have hval : u.val = v.val :=
    List.map_injective_iff.mpr Fin.val_injective hrec
  exact Subtype.ext hval

theorem getSchemaName_valid (u : UUID) :
    (∀ c ∈ getSchemaName defaultPre u, validIdentChar c = true) ∧
    (getSchemaName defaultPre u).head? = some 't' := by
  constructor
  · intro c hc
    rw [getSchemaName, List.mem_append] at hc
    rcases hc with hc | hc
    · revert c
      decide
    · rw [replaceDashes, List.mem_map] at hc
      obtain ⟨c0, hc0, rfl⟩ := hc
      rcases mem_uuidString hc0 with rfl | ⟨d, rfl⟩
      · decide
      · have h1 := (hexDigit_props d).1
        have h2 := (hexDigit_props d).2.1
        rw [replUnderscore, if_neg h2]
        exact h1
  · have hd : defaultPre = 't' :: "enant_".data := rfl
    rw [getSchemaName, hd, List.cons_append, List.head?_cons]

/-- C3: `GetSchemaName` is a pure, deterministic function of the tenant
ID: equal IDs give equal names, distinct IDs give distinct names, and
with the default prefix `"tenant_"` the result consists only of lowercase
alphanumerics and underscores and starts with the letter `t` (so it has
no leading digit). -/
theorem c3_getSchemaName_deterministic_injective_valid :
    (∀ u₁ u₂ : UUID, u₁ = u₂ →
      getSchemaName defaultPre u₁ = getSchemaName defaultPre u₂) ∧
    (∀ u₁ u₂ : UUID, u₁ ≠ u₂ →
      getSchemaName defaultPre u₁ ≠ getSchemaName defaultPre u₂) ∧
    (∀ u : UUID, (∀ c ∈ getSchemaName defaultPre u, validIdentChar c = true) ∧
      (getSchemaName defaultPre u).head? = some 't' ∧ Char.isDigit 't' = false) := by
  refine ⟨fun u₁ u₂ h => by rw [h], fun u₁ u₂ h hn => h (getSchemaName_injective _ hn), ?_⟩
  intro u
  exact ⟨(getSchemaName_valid u).1, (getSchemaName_valid u).2, by decide⟩

/-- The all-zero UUID `00000000-0000-0000-0000-000000000000`. -/
def uuidZero : UUID :=
  ⟨[0, 0, 0, 0, 0, 0, 0, 0, 0, 0, 0, 0, 0, 0, 0, 0], rfl⟩

/-- The UUID `550e8400-e29b-41d4-a716-446655440000`. -/
def uuid550 : UUID :=
  ⟨[85, 14, 132, 0, 226, 155, 65, 212, 167, 22, 68, 102, 85, 68, 0, 0], rfl⟩

/-- Witness for C3 at two concrete tenant IDs. -/
theorem c3_witness :
    getSchemaName defaultPre uuidZero ≠ getSchemaName defaultPre uuid550 :=
  c3_getSchemaName_deterministic_injective_valid.2.1 uuidZero uuid550 (by decide)

/-- C4 (code bug): at the concrete tenant ID
`550e8400-e29b-41d4-a716-446655440000` the schema name computed by the
SQL-side migration functions keeps the UUID hyphens, while the Go
`SchemaManager.GetSchemaName` with the default prefix replaces them with
underscores, so the two names differ and the migration functions do not
scope to the namespace the schema lifecycle manager created. -/
theorem c4_sql_name_differs_from_go_name :
    sqlSchemaName uuid550 = "tenant_550e8400-e29b-41d4-a716-446655440000".data ∧
    getSchemaName defaultPre uuid550
      = "tenant_550e8400_e29b_41d4_a716_446655440000".data ∧
    sqlSchemaName uuid550 ≠ getSchemaName defaultPre uuid550 := by
  decide

/-! ## Tenant identity resolver (`tenant/extensible_interfaces.go`) -/

/-- ASCII case folding of one character, the effect of `strings.EqualFold`
on ASCII input. -/
def foldChar (c : Char) : Char :=
  if 65 ≤ c.toNat ∧ c.toNat ≤ 90 then Char.ofNat (c.toNat + 32) else c

/-- `strings.EqualFold` (ASCII): case-insensitive string equality. -/
def equalFold (s t : Str) : Bool :=
  s.map foldChar == t.map foldChar

/-- A lowercase letter or digit (one character of `[a-z0-9]`). -/
def isLowerAlnum (c : Char) : Bool :=
  (97 ≤ c.toNat && c.toNat ≤ 122) || (48 ≤ c.toNat && c.toNat ≤ 57)

/-- One character of `[a-z0-9-]`. -/
def isLowerAlnumDash (c : Char) : Bool :=
  isLowerAlnum c || c == '-'

/-- Whether a string matches the Go regular expression
`^[a-z0-9][a-z0-9-]*[a-z0-9]$` used by `resolver.ValidateSubdomain`. -/
def regexMatch (s : Str) : Bool :=
  match s with
  | [] => false
  | c :: rest =>
    match rest.getLast? with
    | none => false
    | some lastc =>
      isLowerAlnum c && isLowerAlnum lastc && rest.dropLast.all isLowerAlnumDash

/-- The ASCII apostrophe used in Go error messages. -/
def quoteChar : Char := Char.ofNat 39

def msgLen : Str := "subdomain must be between 3 and 50 characters".data

def msgChars : Str :=
  ("subdomain must contain only lowercase letters, numbers, and hyphens, "
    ++ "and cannot start or end with a hyphen").data

/-- Message of `fmt.Errorf("subdomain constant is reserved", s)` with the key
quoted in apostrophes. -/
def msgReserved (s : Str) : Str :=
  "subdomain ".data ++ [quoteChar] ++ s ++ [quoteChar] ++ " is reserved".data

/-- `resolver.ValidateSubdomain`: length 3..50, regex
`^[a-z0-9][a-z0-9-]*[a-z0-9]$`, then the reserved list checked with
`strings.EqualFold`. -/
def validateSubdomain (reserved : List Str) (s : Str) : Except Str Unit :=
  if s.length < 3 || decide (50 < s.length) then .error msgLen
  else if !regexMatch s then .error msgChars
  else
    match reserved.find? (fun r => equalFold s r) with
    | some _ => .error (msgReserved s)
    | none => .ok ()

/-- `host[:strings.Index(host, ":")]` when a colon is present, `host`
otherwise. -/
def stripPort (host : Str) : Str :=
  host.takeWhile (fun c => c != ':')

def msgEmptyHost : Str := "empty host".data

def msgInvalidHost (h : Str) : Str := "invalid host format: ".data ++ h

def msgReservedSub (s : Str) : Str := "reserved subdomain: ".data ++ s

def msgInvalidSub (e : Str) : Str := "invalid subdomain: ".data ++ e

/-- The shared tail of the three extractors: validate the candidate key,
wrapping a validation error as `"invalid subdomain: ..."`, else return
the key. -/
def finishKey (reserved : List Str) (sub : Str) : Except Str Str :=
  match validateSubdomain reserved sub with
  | .error e => .error (msgInvalidSub e)
  | .ok _ => .ok sub

/-- `resolver.ExtractFromSubdomain`: strip the port, split on dots,
require at least three labels, take the first label, reject reserved
keys, validate. -/
def extractFromSubdomain (reserved : List Str) (host : Str) : Except Str Str :=
  if host = [] then .error msgEmptyHost
  else
    let h := stripPort host
    let parts := h.splitOn '.'
    if parts.length < 3 then .error (msgInvalidHost h)
    else
      match parts with
      | [] => .error (msgInvalidHost h)
      | sub :: _ =>
        if reserved.any (fun r => equalFold sub r) then .error (msgReservedSub sub)
        else finishKey reserved sub

def msgEmptyPath : Str := "empty path".data

def msgNoPre (pre : Str) : Str :=
  "path does not start with tenant prefix: ".data ++ pre

def msgNoTenantInPath : Str := "no tenant found in path".data

/-- `strings.HasPrefix`. -/
def strStarts : Str → Str → Bool
  | [], _ => true
  | _ :: _, [] => false
  | p :: ps, c :: cs => p == c && strStarts ps cs

/-- `resolver.ExtractFromPath`: require the configured path prefix
(default `"/tenant/"`), take the first segment after it, validate. -/
def extractFromPath (reserved : List Str) (pathPre path : Str) : Except Str Str :=
  if path = [] then .error msgEmptyPath
  else
    let pre := if pathPre = [] then "/tenant/".data else pathPre
    if !strStarts pre path then .error (msgNoPre pre)
    else
      let parts := (path.drop pre.length).splitOn '/'
      match parts with
      | [] => .error msgNoTenantInPath
      | sub :: _ =>
        if sub = [] then .error msgNoTenantInPath
        else finishKey reserved sub

def msgNoHeader (h : Str) : Str := "no tenant header found: ".data ++ h

/-- `resolver.ExtractFromHeader`: read the named header verbatim (default
`"X-Tenant"`); empty means absent.  `headers` models
`req.Header.Get`, which returns the empty string for a missing header. -/
def extractFromHeader (reserved : List Str) (headerName : Str)
    (headers : Str → Str) : Except Str Str :=
  let hn := if headerName = [] then "X-Tenant".data else headerName
  let sub := headers hn
  if sub = [] then .error (msgNoHeader hn)
  else finishKey reserved sub

/-- `tenant.ResolverConfig`. -/
structure ResolverConfig where
  strategy : Str
  headerName : Str
  pathPre : Str
  reserved : List Str

/-- The parts of an HTTP request descriptor the resolver reads. -/
structure Request where
  host : Str
  path : Str
  headers : Str → Str

def msgUnknownStrategy (s : Str) : Str :=
  "unknown resolver strategy: ".data ++ s

def msgTenantNotFound (s : Str) : Str :=
  "tenant not found for subdomain: ".data ++ s

/-- The strategy-dispatch stage of `resolver.ResolveTenant`. -/
def extractStage (cfg : ResolverConfig) (req : Request) : Except Str Str :=
  if cfg.strategy = "subdomain".data then
    extractFromSubdomain cfg.reserved req.host
  else if cfg.strategy = "path".data then
    extractFromPath cfg.reserved cfg.pathPre req.path
  else if cfg.strategy = "header".data then
    extractFromHeader cfg.reserved cfg.headerName req.headers
  else .error (msgUnknownStrategy cfg.strategy)

/-- `resolver.ResolveTenant`: extract a key by the configured strategy,
then resolve it through the injected lookup collaborator
(`repository.GetBySubdomain`); a lookup failure is reported as
`"tenant not found for subdomain: ..."`. -/
def resolveTenant (cfg : ResolverConfig) (lookup : Str → Option UUID)
    (req : Request) : Except Str UUID :=
  match extractStage cfg req with
  | .error e => .error e
  | .ok sub =>
    match lookup sub with
    | none => .error (msgTenantNotFound sub)
    | some t => .ok t

/-- The spec-side acceptance predicate for a tenant key: length 3..50,
only lowercase alphanumerics and hyphens, no leading or trailing hyphen,
and not (case-insensitively) in the reserved set. -/
def specAccepts (reserved : List Str) (s : Str) : Prop :=
  3 ≤ s.length ∧ s.length ≤ 50 ∧
  (∀ c ∈ s, isLowerAlnumDash c = true) ∧
  s.head? ≠ some '-' ∧ s.getLast? ≠ some '-' ∧
  ∀ r ∈ reserved, equalFold s r = false

theorem alnum_ne_dash {c : Char} (h : isLowerAlnum c = true) : c ≠ '-' := by
  intro hd
  subst hd
  simp [isLowerAlnum] at h

theorem alnum_of_alnumDash {c : Char} (h : isLowerAlnumDash c = true)
    (hd : c ≠ '-') : isLowerAlnum c = true := by
  simp only [isLowerAlnumDash, Bool.or_eq_true, beq_iff_eq] at h
  rcases h with h | h
  · exact h
  · exact absurd h hd

theorem regexMatch_iff (s : Str) (h2 : 2 ≤ s.length) :
    regexMatch s = true ↔
      ((∀ c ∈ s, isLowerAlnumDash c = true) ∧
        s.head? ≠ some '-' ∧ s.getLast? ≠ some '-') := by
  match s with
  | [] => simp at h2
  | [c] => simp at h2
  | c :: r :: rs =>
    rcases List.eq_nil_or_concat (r :: rs) with hnil | ⟨ys, y, hconc⟩
    · exact absurd hnil (by simp)
    · rw [hconc, List.concat_eq_append]
      have hshape : regexMatch (c :: (ys ++ [y]))
          = (isLowerAlnum c && isLowerAlnum y && ys.all isLowerAlnumDash) := by
        simp [regexMatch, List.getLast?_concat, List.dropLast_concat]
      have hlast : (c :: (ys ++ [y])).getLast? = some y := by
        rw [← List.cons_append, List.getLast?_concat]
      rw [hshape, hlast]
      simp only [Bool.and_eq_true, List.all_eq_true, List.head?_cons,
        List.mem_cons, List.mem_append, List.mem_singleton, List.mem_nil_iff,
        or_false]
      constructor
      · rintro ⟨⟨hc, hy⟩, hmid⟩
        refine ⟨?_, ?_, ?_⟩
        · rintro x (rfl | hx | rfl)
          · simp [isLowerAlnumDash, hc]
          · exact hmid x hx
          · simp [isLowerAlnumDash, hy]
        · intro hh
          exact alnum_ne_dash hc (by simpa using hh)
        · intro hl
          exact alnum_ne_dash hy (by simpa using hl)
      · rintro ⟨hall, hh, hl⟩
        have hc : isLowerAlnum c = true :=
          alnum_of_alnumDash (hall c (Or.inl rfl)) (by simpa using hh)
        have hy : isLowerAlnum y = true :=
          alnum_of_alnumDash (hall y (Or.inr (Or.inr rfl))) (by simpa using hl)
        exact ⟨⟨hc, hy⟩, fun x hx => hall x (Or.inr (Or.inl hx))⟩

theorem validateSubdomain_ok_iff (reserved : List Str) (s : Str) :
    validateSubdomain reserved s = .ok () ↔ specAccepts reserved s := by
  unfold validateSubdomain specAccepts
  constructor
  · intro h
    split_ifs at h with h1 h2
    have hlen : 3 ≤ s.length ∧ s.length ≤ 50 := by
      simp only [Bool.or_eq_true, decide_eq_true_eq] at h1
      push_neg at h1
      omega
    have hre : regexMatch s = true := by
      simpa using h2
    have hiff := (regexMatch_iff s (by omega)).mp hre
    cases hfind : reserved.find? (fun r => equalFold s r) with
    | some r => rw [hfind] at h; exact absurd h (by simp)
    | none =>
      have hres := List.find?_eq_none.mp hfind
      exact ⟨hlen.1, hlen.2, hiff.1, hiff.2.1, hiff.2.2,
        fun r hr => by simpa using hres r hr⟩
  · rintro ⟨hl3, hl50, hall, hh, hl, hres⟩
    have h1 : (s.length < 3 || decide (50 < s.length)) = false := by
      simp only [Bool.or_eq_false_iff, decide_eq_false_iff_not]
      omega
    have hre : regexMatch s = true :=
      (regexMatch_iff s (by omega)).mpr ⟨hall, hh, hl⟩
    have hfind : reserved.find? (fun r => equalFold s r) = none :=
      List.find?_eq_none.mpr (fun r hr => by simp [hres r hr])
    rw [h1]
    simp only [Bool.false_eq_true, if_false, hre, Bool.not_true, hfind]

theorem finishKey_ok {res : List Str} {sub k : Str}
    (h : finishKey res sub = .ok k) : validateSubdomain res k = .ok () := by
  unfold finishKey at h
  split at h
  · simp at h
  · rename_i u hv
    cases u
    simp only [Except.ok.injEq] at h
    rw [← h]
    exact hv

theorem extractFromSubdomain_validates {res : List Str} {host k : Str}
    (h : extractFromSubdomain res host = .ok k) :
    validateSubdomain res k = .ok () := by
  unfold extractFromSubdomain at h
  simp only [] at h
  repeat' split at h
  all_goals first
  | exact finishKey_ok h
  | simp at h

theorem extractFromPath_validates {res : List Str} {pre path k : Str}
    (h : extractFromPath res pre path = .ok k) :
    validateSubdomain res k = .ok () := by
  unfold extractFromPath at h
  simp only [] at h
  repeat' split at h
  all_goals first
  | exact finishKey_ok h
  | simp at h

theorem extractFromHeader_validates {res : List Str} {hn : Str}
    {headers : Str → Str} {k : Str}
    (h : extractFromHeader res hn headers = .ok k) :
    validateSubdomain res k = .ok () := by
  unfold extractFromHeader at h
  simp only [] at h
  repeat' split at h
  all_goals first
  | exact finishKey_ok h
  | simp at h

/-- The reserved set used in the resolver scenarios. -/
def reservedWA : List Str := ["www".data, "api".data]

deriving instance DecidableEq for Except

instance (reserved : List Str) (s : Str) : Decidable (specAccepts reserved s) := by
  unfold specAccepts
  infer_instance

/-- C8: tenant-key validation is uniform across the subdomain, path and
header strategies — every key any strategy returns satisfies
`ValidateSubdomain`, acceptance is equivalent to the spec predicate
(length 3..50, lowercase alphanumerics with internal hyphens only, no
leading/trailing hyphen, not reserved) — and, with reserved
`www`/`api`: host `acme.example.com` yields `acme`, `www.example.com`
is rejected as reserved, `example.com` is rejected for too few labels,
and key `ab` is rejected as too short. -/
theorem c8_uniform_key_validation :
    (∀ (reserved : List Str) (s : Str),
      validateSubdomain reserved s = .ok () ↔ specAccepts reserved s) ∧
    (∀ (reserved : List Str) (host k : Str),
      extractFromSubdomain reserved host = .ok k →
        validateSubdomain reserved k = .ok ()) ∧
    (∀ (reserved : List Str) (pre path k : Str),
      extractFromPath reserved pre path = .ok k →
        validateSubdomain reserved k = .ok ()) ∧
    (∀ (reserved : List Str) (hn : Str) (headers : Str → Str) (k : Str),
      extractFromHeader reserved hn headers = .ok k →
        validateSubdomain reserved k = .ok ()) ∧
    extractFromSubdomain reservedWA "acme.example.com".data = .ok "acme".data ∧
    extractFromSubdomain reservedWA "www.example.com".data
      = .error (msgReservedSub "www".data) ∧
    extractFromSubdomain reservedWA "example.com".data
      = .error (msgInvalidHost "example.com".data) ∧
    validateSubdomain reservedWA "ab".data = .error msgLen := by
  refine ⟨validateSubdomain_ok_iff,
    fun _ _ _ h => extractFromSubdomain_validates h,
    fun _ _ _ _ h => extractFromPath_validates h,
    fun _ _ _ _ h => extractFromHeader_validates h,
    ?_, ?_, ?_, ?_⟩ <;> decide

/-- Witness for C8: the uniformity and equivalence parts applied at
concrete keys. -/
theorem c8_witness :
    validateSubdomain reservedWA "acme".data = .ok () ∧
    validateSubdomain reservedWA "a-b".data = .ok () :=
  ⟨c8_uniform_key_validation.2.1 reservedWA "acme.example.com".data "acme".data
      (by decide),
   (c8_uniform_key_validation.1 reservedWA "a-b".data).mpr (by decide)⟩

/-- The fixed prefix of every lookup-miss error message. -/
def missPre : Str := "tenant not found for subdomain: ".data

/-- Classifier separating the two error kinds of `ResolveTenant`: `true`
exactly on lookup-miss errors. -/
def isLookupMiss (e : Str) : Bool := strStarts missPre e

theorem strStarts_append (p s : Str) : strStarts p (p ++ s) = true := by
  induction p with
  | nil => rfl
  | cons c cs ih => simp [strStarts, ih]

theorem head_msgEmptyHost : msgEmptyHost.head? = some 'e' := rfl

theorem head_msgInvalidHost (h : Str) : (msgInvalidHost h).head? = some 'i' := rfl

theorem head_msgReservedSub (s : Str) : (msgReservedSub s).head? = some 'r' := rfl

theorem head_msgInvalidSub (e : Str) : (msgInvalidSub e).head? = some 'i' := rfl

theorem head_msgEmptyPath : msgEmptyPath.head? = some 'e' := rfl

theorem head_msgNoPre (p : Str) : (msgNoPre p).head? = some 'p' := rfl

theorem head_msgNoTenantInPath : msgNoTenantInPath.head? = some 'n' := rfl

theorem head_msgNoHeader (h : Str) : (msgNoHeader h).head? = some 'n' := rfl

theorem head_msgUnknownStrategy (s : Str) :
    (msgUnknownStrategy s).head? = some 'u' := rfl

theorem isLookupMiss_false {e : Str} (h : e.head? ≠ some 't') :
    isLookupMiss e = false := by
  cases e with
  | nil => rfl
  | cons c cs =>
    simp only [List.head?_cons] at h
    have hc : ('t' == c) = false := by
      refine beq_eq_false_iff_ne.mpr ?_
      intro ht
      exact h (by rw [← ht])
    have hshape : isLookupMiss (c :: cs)
        = (('t' == c) && strStarts "enant not found for subdomain: ".data cs) := rfl
    rw [hshape, hc, Bool.false_and]

theorem isLookupMiss_msgTenantNotFound (s : Str) :
    isLookupMiss (msgTenantNotFound s) = true :=
  strStarts_append missPre s

theorem extractStage_err_head {cfg : ResolverConfig} {req : Request} {e : Str}
    (h : extractStage cfg req = .error e) : e.head? ≠ some 't' := by
  unfold extractStage extractFromSubdomain extractFromPath extractFromHeader
    finishKey at h
  simp only [] at h
  repeat' split at h
  all_goals
    simp only [Except.error.injEq, reduceCtorEq] at h
  all_goals subst h
  all_goals first
  | (rw [head_msgEmptyHost]; decide)
  | (rw [head_msgInvalidHost]; decide)
  | (rw [head_msgReservedSub]; decide)
  | (rw [head_msgInvalidSub]; decide)
  | (rw [head_msgEmptyPath]; decide)
  | (rw [head_msgNoPre]; decide)
  | (rw [head_msgNoTenantInPath]; decide)
  | (rw [head_msgNoHeader]; decide)
  | (rw [head_msgUnknownStrategy]; decide)

/-- C9: `ResolveTenant` returns distinguishable error kinds for its two
failure cases: an error from the extraction/validation stage is returned
verbatim and never carries the lookup-miss prefix, while a well-formed
key whose lookup finds no tenant yields the
`"tenant not found for subdomain: ..."` error, which does. The boolean
classifier `isLookupMiss` separates the two kinds exactly. -/
theorem c9_resolver_error_kinds (cfg : ResolverConfig)
    (lookup : Str → Option UUID) (req : Request) :
    (∀ e, extractStage cfg req = .error e →
      resolveTenant cfg lookup req = .error e ∧ isLookupMiss e = false) ∧
    (∀ k, extractStage cfg req = .ok k → lookup k = none →
      resolveTenant cfg lookup req = .error (msgTenantNotFound k) ∧
      isLookupMiss (msgTenantNotFound k) = true) := by
  constructor
  · intro e he
    refine ⟨?_, isLookupMiss_false (extractStage_err_head he)⟩
    unfold resolveTenant
    rw [he]
  · intro k hk hmiss
    refine ⟨?_, isLookupMiss_msgTenantNotFound k⟩
    unfold resolveTenant
    rw [hk]
    simp only []
    rw [hmiss]

/-- A resolver configuration using the subdomain strategy with reserved
keys `www` and `api`. -/
def cfgSub : ResolverConfig :=
  { strategy := "subdomain".data
    headerName := []
    pathPre := []
    reserved := reservedWA }

/-- A lookup collaborator that knows no tenants. -/
def lookupNone : Str → Option UUID := fun _ => none

/-- A request with host `example.com`. -/
def reqExample : Request :=
  { host := "example.com".data, path := [], headers := fun _ => [] }

/-- A request with host `acme.example.com`. -/
def reqAcme : Request :=
  { host := "acme.example.com".data, path := [], headers := fun _ => [] }

/-- Witness for C9: both error kinds observed at concrete requests. -/
theorem c9_witness :
    (resolveTenant cfgSub lookupNone reqExample
        = .error (msgInvalidHost "example.com".data) ∧
      isLookupMiss (msgInvalidHost "example.com".data) = false) ∧
    (resolveTenant cfgSub lookupNone reqAcme
        = .error (msgTenantNotFound "acme".data) ∧
      isLookupMiss (msgTenantNotFound "acme".data) = true) :=
  ⟨(c9_resolver_error_kinds cfgSub lookupNone reqExample).1
      (msgInvalidHost "example.com".data) (by decide),
   (c9_resolver_error_kinds cfgSub lookupNone reqAcme).2
      "acme".data (by decide) rfl⟩

/-! ## Tenant-scoped connection router (`tenant/manager.go`) -/

/-- `fmt.Errorf("msg: %w", err)`: wrap an error under a new message. -/
def wrapf (msg e : Str) : Str := msg ++ ": ".data ++ e

/-- PostgreSQL delimited-identifier quoting used by the manager
(`fmt.Sprintf` with a quoted verb). -/
def quoteIdent (s : Str) : Str := '"' :: s ++ ['"']

/-- The query text built by `WithTenantTx`:
`SET LOCAL search_path TO "<schema>", public`. -/
def setLocalQuery (tid : UUID) : Str :=
  "SET LOCAL search_path TO ".data ++ quoteIdent (getSchemaName defaultPre tid)
    ++ ", public".data

/-- The query text built by `GetTenantConn`:
`SET search_path TO "<schema>", public`. -/
def setQuery (tid : UUID) : Str :=
  "SET search_path TO ".data ++ quoteIdent (getSchemaName defaultPre tid)
    ++ ", public".data

/-- Outcomes of the fallible driver calls `WithTenantTx` makes, in
program order: connection acquisition, `BeginTx`, the `SET LOCAL`
statement, `Commit`. `none` means the call succeeds. -/
structure TxEnv where
  connErr : Option Str
  beginErr : Option Str
  setErr : Option Str
  commitErr : Option Str

/-- `manager.WithTenantTx` over an abstract database state `σ`: acquire a
dedicated connection, begin a transaction, `SET LOCAL` the tenant search
path, run the caller function on the transaction (its writes stay
pending), then commit; on any failure the transaction is rolled back and
the committed state is unchanged. Returns the Go error result, the
committed database state after the call, and the trace of tenant-scoping
statements executed. -/
def withTenantTx {σ : Type} (env : TxEnv) (db : σ) (tid : UUID)
    (fn : σ → Except Str σ) : Except Str Unit × σ × List Str :=
  match env.connErr with
  | some e => (.error (wrapf "failed to acquire connection".data e), db, [])
  | none =>
    match env.beginErr with
    | some e => (.error (wrapf "failed to begin transaction".data e), db, [])
    | none =>
      match env.setErr with
      | some e =>
        (.error (wrapf "failed to set search path".data e), db, [setLocalQuery tid])
      | none =>
        match fn db with
        | .error e => (.error e, db, [setLocalQuery tid])
        | .ok db2 =>
          match env.commitErr with
          | some e =>
            (.error (wrapf "failed to commit transaction".data e), db,
              [setLocalQuery tid])
          | none => (.ok (), db2, [setLocalQuery tid])

/-- C2: when acquisition, begin and the `SET LOCAL` all succeed and the
caller function fails, `WithTenantTx` rolls the transaction back — the
committed state after the call is exactly the state before it, so an
INSERT inside the unit of work is invisible — and returns exactly the
caller's error, unwrapped; the tenant search path was set with a
transaction-local `SET LOCAL` statement. -/
theorem c2_withTenantTx_rollback_and_exact_error (σ : Type) (env : TxEnv)
    (db : σ) (tid : UUID) (fn : σ → Except Str σ) (e : Str)
    (hconn : env.connErr = none) (hbegin : env.beginErr = none)
    (hset : env.setErr = none) (hfn : fn db = .error e) :
    withTenantTx env db tid fn = (.error e, db, [setLocalQuery tid]) ∧
    strStarts "SET LOCAL ".data (setLocalQuery tid) = true := by
  constructor
  · unfold withTenantTx
    rw [hconn]
    simp only []
    rw [hbegin]
    simp only []
    rw [hset]
    simp only []
    rw [hfn]
  · exact strStarts_append _ _

/-- Witness for C2: a concrete failing unit of work over a list-of-rows
database. -/
theorem c2_witness :
    withTenantTx (σ := List Nat) ⟨none, none, none, none⟩ [7] uuid550
        (fun st => .error "boom".data)
      = (.error "boom".data, [7], [setLocalQuery uuid550]) ∧
    strStarts "SET LOCAL ".data (setLocalQuery uuid550) = true :=
  c2_withTenantTx_rollback_and_exact_error (List Nat) ⟨none, none, none, none⟩
    [7] uuid550 (fun st => .error "boom".data) "boom".data rfl rfl rfl rfl

/-- A physical pooled connection: the state the router manipulates is its
session-level `search_path`. -/
structure Conn where
  sessionPath : List Str

/-- The PostgreSQL default `search_path` a fresh pool connection starts
with. -/
def defaultSearchPath : List Str := ["$user".data, "public".data]

/-- Outcomes of the fallible calls `GetTenantConn` makes. -/
structure ConnEnv where
  connErr : Option Str
  execErr : Option Str

/-- `manager.GetTenantConn`: check a connection out of the pool
exclusively and execute a session-level `SET search_path` on it. Returns
the connection and the trace of statements executed on it. -/
def getTenantConn (env : ConnEnv) (c0 : Conn) (tid : UUID) :
    Except Str (Conn × List Str) :=
  match env.connErr with
  | some e => .error (wrapf "failed to acquire connection".data e)
  | none =>
    match env.execErr with
    | some e => .error (wrapf "failed to set search path".data e)
    | none =>
      .ok ({ sessionPath := [getSchemaName defaultPre tid, "public".data] },
        [setQuery tid])

/-- `sql.Conn.Close` as used by callers of `GetTenantConn`: the
connection is returned to the pool; no code path in `manager.go`
executes any reset statement on it, so its session state is returned
unchanged. -/
def closeConn (c : Conn) : Conn := c

/-- C10: the connection `GetTenantConn` hands out had its search path set
with a session-level `SET` (not `SET LOCAL`), and closing it returns it
to the shared pool still carrying the tenant's namespace resolution
order `[schema(T), public]` — which is not the default search path —
because no code path resets it. -/
theorem c10_getTenantConn_session_set_leaks (env : ConnEnv) (c0 : Conn)
    (tid : UUID) (c : Conn) (tr : List Str)
    (h : getTenantConn env c0 tid = .ok (c, tr)) :
    tr = [setQuery tid] ∧
    strStarts "SET LOCAL".data (setQuery tid) = false ∧
    strStarts "SET search_path TO ".data (setQuery tid) = true ∧
    closeConn c = c ∧
    (closeConn c).sessionPath = [getSchemaName defaultPre tid, "public".data] ∧
    (closeConn c).sessionPath ≠ defaultSearchPath := by
  have hok : c = { sessionPath := [getSchemaName defaultPre tid, "public".data] }
      ∧ tr = [setQuery tid] := by
    unfold getTenantConn at h
    cases hc : env.connErr with
    | some e => rw [hc] at h; simp at h
    | none =>
      rw [hc] at h
      cases he : env.execErr with
      | some e => simp only [] at h; rw [he] at h; simp at h
      | none =>
        simp only [] at h
        rw [he] at h
        simp only [Except.ok.injEq, Prod.mk.injEq] at h
        exact ⟨h.1.symm, h.2.symm⟩
  obtain ⟨rfl, rfl⟩ := hok
  refine ⟨rfl, ?_, strStarts_append _ _, rfl, rfl, ?_⟩
  · have hshape : strStarts "SET LOCAL".data (setQuery tid)
        = strStarts "LOCAL".data ("search_path TO ".data
            ++ quoteIdent (getSchemaName defaultPre tid) ++ ", public".data) := rfl
    rw [hshape]
    rfl
  · intro hcontra
    simp only [closeConn, defaultSearchPath, List.cons.injEq] at hcontra
    have hhead := congrArg List.head? hcontra.1
    rw [(getSchemaName_valid tid).2] at hhead
    simp at hhead

/-- Witness for C10 at a concrete tenant and environment. -/
theorem c10_witness :
    strStarts "SET LOCAL".data (setQuery uuid550) = false ∧
    (closeConn { sessionPath := [getSchemaName defaultPre uuid550, "public".data] }).sessionPath
      ≠ defaultSearchPath :=
  ⟨(c10_getTenantConn_session_set_leaks ⟨none, none⟩ ⟨defaultSearchPath⟩ uuid550
      _ _ rfl).2.1,
   (c10_getTenantConn_session_set_leaks ⟨none, none⟩ ⟨defaultSearchPath⟩ uuid550
      _ _ rfl).2.2.2.2.2⟩

/-! ## Schema lifecycle (`ProvisionTenant`, `SchemaManager.CreateTenantSchema`) -/

/-- Kinds of catalog objects `createTenantTables` creates. -/
inductive ObjKind
  | table
  | index
  | trigger
deriving DecidableEq

/-- The database catalog: existing namespaces and the objects
(kind, namespace, object name) inside them. -/
structure Catalog where
  schemas : List Str
  objs : List (ObjKind × Str × Str)
deriving DecidableEq

/-- State seen by statements inside one transaction: the pending catalog
and the connection's current `search_path`. -/
structure TxCat where
  cat : Catalog
  path : List Str

/-- Resolution of an unqualified object name: the first schema of the
search path that exists. -/
def resolveSchema (cat : Catalog) (path : List Str) : Option Str :=
  path.find? (fun s => cat.schemas.contains s)

/-- The DDL statements `CreateTenantSchema` executes, semantically:
`CREATE SCHEMA IF NOT EXISTS`, `SET search_path TO <schema>, public`,
and the unqualified `CREATE TABLE/INDEX/TRIGGER` statements of
`createTenantTables`. -/
inductive DDL
  | createSchema
  | setPath
  | createObj (k : ObjKind) (o : Str)

/-- The four tables of `createTenantTables`. -/
def tenantTableNames : List Str :=
  ["projects".data, "tasks".data, "documents".data, "tenant_users".data]

/-- The seven indexes of `createTenantTables`. -/
def tenantIndexNames : List Str :=
  ["idx_projects_status".data, "idx_projects_created_at".data,
   "idx_tasks_project_id".data, "idx_tasks_status".data,
   "idx_tasks_due_date".data, "idx_documents_project_id".data,
   "idx_tenant_users_role".data]

/-- The three update triggers of `createTenantTables`. -/
def tenantTriggerNames : List Str :=
  ["update_projects_updated_at".data, "update_tasks_updated_at".data,
   "update_tenant_users_updated_at".data]

/-- The fixed object set of a tenant schema. -/
def tenantObjs : List (ObjKind × Str) :=
  tenantTableNames.map (fun t => (ObjKind.table, t))
    ++ tenantIndexNames.map (fun i => (ObjKind.index, i))
    ++ tenantTriggerNames.map (fun g => (ObjKind.trigger, g))

/-- Effect of one DDL statement of `CreateTenantSchema` for schema `name`
on the transaction state. `CREATE SCHEMA` and `CREATE TABLE`/`CREATE
INDEX` use `IF NOT EXISTS`; `CREATE TRIGGER` does not and fails on a
duplicate; an unqualified create with no resolvable schema fails. -/
def applyDDL (name : Str) (st : TxCat) : DDL → Except Str TxCat
  | .createSchema =>
    if st.cat.schemas.contains name then .ok st
    else .ok { st with cat := { st.cat with schemas := name :: st.cat.schemas } }
  | .setPath => .ok { st with path := [name, "public".data] }
  | .createObj k o =>
    match resolveSchema st.cat st.path with
    | none => .error "no schema has been selected to create in".data
    | some sc =>
      if (k, sc, o) ∈ st.cat.objs then
        match k with
        | .trigger => .error "trigger already exists".data
        | _ => .ok st
      else .ok { st with cat := { st.cat with objs := (k, sc, o) :: st.cat.objs } }

/-- Run the statements in order; `failAt = some j` injects a driver
failure at the `j`-th statement (counting from `k`). -/
def runDDLs (name : Str) (failAt : Option Nat) :
    List DDL → Nat → TxCat → Except Str TxCat
  | [], _, st => .ok st
  | d :: ds, k, st =>
    if failAt = some k then .error "injected driver failure".data
    else
      match applyDDL name st d with
      | .error e => .error e
      | .ok st2 => runDDLs name failAt ds (k + 1) st2

/-- The statement list of `CreateTenantSchema` in program order. -/
def createSchemaStmts : List DDL :=
  DDL.createSchema :: DDL.setPath ::
    (tenantTableNames.map (DDL.createObj ObjKind.table)
      ++ tenantIndexNames.map (DDL.createObj ObjKind.index)
      ++ tenantTriggerNames.map (DDL.createObj ObjKind.trigger))

/-- `SchemaManager.CreateTenantSchema`: one transaction that creates the
namespace, switches the search path to it, and creates the fixed object
set; any failure rolls the transaction back (`defer tx.Rollback()`),
leaving the committed catalog unchanged; on success the commit publishes
the pending catalog. `p0` is the search path the pooled connection
starts with. -/
def createTenantSchema (beginErr : Bool) (failAt : Option Nat)
    (commitFail : Bool) (p0 : List Str) (db : Catalog) (tid : UUID) :
    Except Str Unit × Catalog :=
  let name := getSchemaName defaultPre tid
  if beginErr then (.error "failed to begin transaction".data, db)
  else
    match runDDLs name failAt createSchemaStmts 0 { cat := db, path := p0 } with
    | .error e => (.error e, db)
    | .ok st2 =>
      if commitFail then (.error "failed to commit transaction".data, db)
      else (.ok (), st2.cat)

/-- `DROP SCHEMA IF EXISTS ... CASCADE` (`DropTenantSchema`). -/
def dropTenantSchema (db : Catalog) (tid : UUID) : Catalog :=
  let name := getSchemaName defaultPre tid
  { schemas := db.schemas.filter (fun s => s ≠ name)
    objs := db.objs.filter (fun x => x.2.1 ≠ name) }

/-- Outcomes of the fallible collaborator calls `ProvisionTenant` makes. -/
structure ProvEnv where
  getErr : Option Str
  existsErr : Option Str
  beginErr : Bool
  failAt : Option Nat
  commitFail : Bool
  updateErr : Option Str

/-- `manager.ProvisionTenant`: load the tenant, check `SchemaExists`; if
the namespace already exists, log and succeed without creating anything;
otherwise run `CreateTenantSchema`, then update the tenant status
(dropping the schema again if that update fails). -/
def provisionTenant (env : ProvEnv) (p0 : List Str) (db : Catalog)
    (tid : UUID) : Except Str Unit × Catalog :=
  match env.getErr with
  | some e => (.error (wrapf "failed to get tenant".data e), db)
  | none =>
    match env.existsErr with
    | some e => (.error (wrapf "failed to check schema existence".data e), db)
    | none =>
      if db.schemas.contains (getSchemaName defaultPre tid) then (.ok (), db)
      else
        match createTenantSchema env.beginErr env.failAt env.commitFail p0 db tid with
        | (.error e, db2) =>
          (.error (wrapf "failed to create tenant schema".data e), db2)
        | (.ok _, db2) =>
          match env.updateErr with
          | some e =>
            (.error (wrapf "failed to update tenant status".data e),
              dropTenantSchema db2 tid)
          | none => (.ok (), db2)

theorem resolve_tenant_first {cat : Catalog} {name : Str}
    (hn : cat.schemas.contains name = true) :
    resolveSchema cat [name, "public".data] = some name := by
  unfold resolveSchema
  rw [List.find?_cons_of_pos]
  exact hn

theorem run_creates (name : Str) (failAt : Option Nat) :
    ∀ (ds : List (ObjKind × Str)) (k : Nat) (st st2 : TxCat),
      st.path = [name, "public".data] →
      st.cat.schemas.contains name = true →
      runDDLs name failAt (ds.map (fun ko => DDL.createObj ko.1 ko.2)) k st
        = .ok st2 →
      st2.cat.schemas = st.cat.schemas ∧
      (∀ x ∈ st.cat.objs, x ∈ st2.cat.objs) ∧
      (∀ ko ∈ ds, (ko.1, name, ko.2) ∈ st2.cat.objs) ∧
      (∀ x ∈ st2.cat.objs, x ∈ st.cat.objs ∨ x.2.1 = name) := by
  intro ds
  induction ds with
  | nil =>
    intro k st st2 hp hn hrun
    simp only [List.map_nil, runDDLs, Except.ok.injEq] at hrun
    subst hrun
    exact ⟨rfl, fun x hx => hx, by simp, fun x hx => Or.inl hx⟩
  | cons ko ds ih =>
    intro k st st2 hp hn hrun
    simp only [List.map_cons, runDDLs] at hrun
    split at hrun
    · simp at hrun
    · rw [show applyDDL name st (DDL.createObj ko.1 ko.2)
          = (match resolveSchema st.cat st.path with
             | none => .error "no schema has been selected to create in".data
             | some sc =>
               if (ko.1, sc, ko.2) ∈ st.cat.objs then
                 match ko.1 with
                 | .trigger => .error "trigger already exists".data
                 | _ => .ok st
               else .ok { st with cat :=
                 { st.cat with objs := (ko.1, sc, ko.2) :: st.cat.objs } }) from rfl,
          hp, resolve_tenant_first hn] at hrun
      simp only [] at hrun
      split at hrun
      · simp at hrun
      · rename_i st1 heq
        split at heq
        · rename_i hmem
          split at heq
          · simp at heq
          · rename_i hkind
            simp only [Except.ok.injEq] at heq
            subst heq
            obtain ⟨hs, hmono, hds, hub⟩ := ih (k + 1) st st2 hp hn hrun
            refine ⟨hs, hmono, ?_, hub⟩
            intro ko2 hko2
            rcases List.mem_cons.mp hko2 with rfl | h2
            · exact hmono _ hmem
            · exact hds ko2 h2
        · rename_i hmem
          simp only [Except.ok.injEq] at heq
          subst heq
          obtain ⟨hs, hmono, hds, hub⟩ := ih (k + 1)
            { cat := { schemas := st.cat.schemas
                       objs := (ko.1, name, ko.2) :: st.cat.objs }
              path := [name, "public".data] } st2 rfl hn hrun
          refine ⟨hs, ?_, ?_, ?_⟩
          · intro x hx
            exact hmono x (List.mem_cons_of_mem _ hx)
          · intro ko2 hko2
            rcases List.mem_cons.mp hko2 with rfl | h2
            · exact hmono _ (List.mem_cons_self _ _)
            · exact hds ko2 h2
          · intro x hx
            rcases hub x hx with hx2 | hx2
            · rcases List.mem_cons.mp hx2 with rfl | h3
              · exact Or.inr rfl
              · exact Or.inl h3
            · exact Or.inr hx2

theorem createTenantSchema_err {be : Bool} {failAt : Option Nat} {cf : Bool}
    {p0 : List Str} {db : Catalog} {tid : UUID} {e : Str} {db2 : Catalog}
    (h : createTenantSchema be failAt cf p0 db tid = (.error e, db2)) :
    db2 = db := by
  unfold createTenantSchema at h
  simp only [] at h
  split at h
  · simp only [Prod.mk.injEq] at h
    exact h.2.symm
  · split at h
    · simp only [Prod.mk.injEq] at h
      exact h.2.symm
    · split at h
      · simp only [Prod.mk.injEq] at h
        exact h.2.symm
      · simp at h

/-- Proof-side abbreviation: the transaction state after `CREATE SCHEMA`
for a previously absent schema. -/
def stAfterSchema (db : Catalog) (p0 : List Str) (nm : Str) : TxCat :=
  { cat := { schemas := nm :: db.schemas, objs := db.objs }, path := p0 }

/-- Proof-side abbreviation: the transaction state after the
`SET search_path` statement. -/
def stAfterPath (db : Catalog) (nm : Str) : TxCat :=
  { cat := { schemas := nm :: db.schemas, objs := db.objs }
    path := [nm, "public".data] }

theorem createTenantSchema_ok {be : Bool} {failAt : Option Nat} {cf : Bool}
    {p0 : List Str} {db : Catalog} {tid : UUID} {db2 : Catalog}
    (hnot : db.schemas.contains (getSchemaName defaultPre tid) = false)
    (h : createTenantSchema be failAt cf p0 db tid = (.ok (), db2)) :
    getSchemaName defaultPre tid ∈ db2.schemas ∧
    (∀ ko ∈ tenantObjs, (ko.1, getSchemaName defaultPre tid, ko.2) ∈ db2.objs) ∧
    (∀ x ∈ db.objs, x ∈ db2.objs) ∧
    (∀ x ∈ db2.objs, x ∈ db.objs ∨ x.2.1 = getSchemaName defaultPre tid) := by
  unfold createTenantSchema at h
  simp only [] at h
  split at h
  · simp at h
  · split at h
    · simp at h
    · rename_i st2 hrun
      split at h
      · simp at h
      · simp only [Prod.mk.injEq] at h
        obtain ⟨-, hdb2⟩ := h
        subst hdb2
        rw [show createSchemaStmts = DDL.createSchema :: DDL.setPath
            :: tenantObjs.map (fun ko => DDL.createObj ko.1 ko.2) from rfl] at hrun
        rw [runDDLs] at hrun
        split at hrun
        · simp at hrun
        · have e1 : applyDDL (getSchemaName defaultPre tid)
              { cat := db, path := p0 } DDL.createSchema
              = (if db.schemas.contains (getSchemaName defaultPre tid)
                 then .ok { cat := db, path := p0 }
                 else .ok (stAfterSchema db p0 (getSchemaName defaultPre tid))) :=
            rfl
          rw [e1, hnot] at hrun
          simp only [Bool.false_eq_true, if_false] at hrun
          rw [runDDLs] at hrun
          split at hrun
          · simp at hrun
          · have e2 : applyDDL (getSchemaName defaultPre tid)
                (stAfterSchema db p0 (getSchemaName defaultPre tid)) DDL.setPath
                = .ok (stAfterPath db (getSchemaName defaultPre tid)) := rfl
            rw [e2] at hrun
            simp only [] at hrun
            have hn : (stAfterPath db (getSchemaName defaultPre tid)
                ).cat.schemas.contains (getSchemaName defaultPre tid) = true := by
              simp [stAfterPath]
            obtain ⟨hs, hmono, hds, hub⟩ :=
              run_creates (getSchemaName defaultPre tid) failAt tenantObjs 2
                (stAfterPath db (getSchemaName defaultPre tid)) st2 rfl hn hrun
            refine ⟨?_, hds, hmono, fun x hx => hub x hx⟩
            rw [hs]
            exact List.mem_cons_self _ _

theorem getSchemaName_ne_public (tid : UUID) :
    getSchemaName defaultPre tid ≠ "public".data := by
  intro h
  have hh := congrArg List.head? h
  rw [(getSchemaName_valid tid).2] at hh
  simp at hh

/-- C5: schema creation is idempotent and all-or-nothing. If the tenant's
namespace already exists, `ProvisionTenant` succeeds without changing the
catalog; otherwise `CreateTenantSchema` runs in one transaction, and
every failing outcome leaves the catalog exactly as it was (no orphaned
namespace, no leaked objects), while a successful outcome creates the
namespace and its fixed set of tables, indexes and triggers inside it,
adding nothing to the `public` namespace. -/
theorem c5_provision_idempotent_all_or_nothing (env : ProvEnv)
    (p0 : List Str) (db : Catalog) (tid : UUID)
    (hget : env.getErr = none) (hex : env.existsErr = none) :
    (db.schemas.contains (getSchemaName defaultPre tid) = true →
      provisionTenant env p0 db tid = (.ok (), db)) ∧
    (db.schemas.contains (getSchemaName defaultPre tid) = false →
      (∀ e db2,
        createTenantSchema env.beginErr env.failAt env.commitFail p0 db tid
          = (.error e, db2) → db2 = db) ∧
      (∀ db2,
        createTenantSchema env.beginErr env.failAt env.commitFail p0 db tid
          = (.ok (), db2) →
        getSchemaName defaultPre tid ∈ db2.schemas ∧
        (∀ ko ∈ tenantObjs,
          (ko.1, getSchemaName defaultPre tid, ko.2) ∈ db2.objs) ∧
        (∀ x ∈ db.objs, x ∈ db2.objs) ∧
        (∀ x ∈ db2.objs, x.2.1 = "public".data → x ∈ db.objs))) := by
  constructor
  · intro hex2
    unfold provisionTenant
    rw [hget]
    simp only []
    rw [hex]
    simp only []
    rw [hex2]
    simp
  · intro hnot
    refine ⟨fun e db2 hh => createTenantSchema_err hh, ?_⟩
    intro db2 hh
    obtain ⟨h1, h2, h3, h4⟩ := createTenantSchema_ok hnot hh
    refine ⟨h1, h2, h3, ?_⟩
    intro x hx hpub
    rcases h4 x hx with hin | hnm
    · exact hin
    · exact absurd (hnm ▸ hpub) (getSchemaName_ne_public tid)

/-- A catalog holding only the `public` namespace. -/
def dbEmpty : Catalog := ⟨["public".data], []⟩

/-- A catalog in which tenant `uuidZero`'s namespace already exists. -/
def dbZero : Catalog := ⟨[getSchemaName defaultPre uuidZero], []⟩

/-- Witness for C5: provisioning an already-provisioned tenant is a
no-op success, and a fresh creation puts the namespace in the catalog. -/
theorem c5_witness :
    provisionTenant ⟨none, none, false, none, false, none⟩ ["public".data]
        dbZero uuidZero = (.ok (), dbZero) ∧
    getSchemaName defaultPre uuid550 ∈
      ((createTenantSchema false none false ["public".data] dbEmpty
        uuid550).2).schemas :=
  ⟨(c5_provision_idempotent_all_or_nothing
      ⟨none, none, false, none, false, none⟩ ["public".data] dbZero uuidZero
      rfl rfl).1 (by decide),
   (((c5_provision_idempotent_all_or_nothing
      ⟨none, none, false, none, false, none⟩ ["public".data] dbEmpty uuid550
      rfl rfl).2 (by decide)).2 _ (by rfl)).1⟩

/-! ## Migration applier (`database/migration_manager.go` and the
PL/pgSQL functions of the migration-functions SQL file) -/

/-- One row of the central `public.tenant_migrations` ledger. -/
structure LedgerRow where
  tenant : UUID
  version : Str
  name : Str
  rollback : Option Str
  checksum : Str
deriving DecidableEq

/-- A migration (`tenant.Migration`): opaque version, name, SQL body and
optional rollback body. -/
structure Migration where
  version : Str
  name : Str
  sql : Str
  rollbackSQL : Option Str
deriving DecidableEq

/-- Migration-applier state: the ledger plus the trace of migration
bodies the database has executed to completion, each paired with the
`search_path` in effect while it ran. -/
structure MigState where
  ledger : List LedgerRow
  execed : List (Str × List Str)
deriving DecidableEq

/-- The PL/pgSQL function `is_tenant_migration_applied` /
the duplicate check inside `apply_tenant_migration`: does the ledger
record `(tenant_id, migration_version)`? -/
def isMigrationApplied (st : MigState) (tid : UUID) (v : Str) : Bool :=
  st.ledger.any (fun r => decide (r.tenant = tid) && decide (r.version = v))

/-- Rows of the ledger recording `(tid, v)`. -/
def countRows (st : MigState) (tid : UUID) (v : Str) : Nat :=
  (st.ledger.filter (fun r => decide (r.tenant = tid) && decide (r.version = v))).length

/-- Outcomes of the environment-dependent steps of `ApplyMigration`:
the Go-side `validate_tenant_schema` call, the schema-existence check
inside `apply_tenant_migration` (both modelled as oracle outcomes — they
are catalog queries, not ledger logic), and the `EXECUTE migration_sql`
of the body. -/
structure MigEnv where
  validateOk : Bool
  sqlSchemaOk : Bool
  bodyErr : Option Str

/-- The PL/pgSQL function `apply_tenant_migration`, which runs atomically
(an exception rolls back all of its effects): duplicate `(tenant,
version)` is a no-op `RETURN`; a missing schema raises; otherwise the
search path is set to `'tenant_' || uuid` and `public`, the body is
executed, and a ledger row with the body's content digest is inserted.
`digest` abstracts `encode(digest(migration_sql, 'sha256'), 'hex')`. -/
def applyTenantMigrationSQL (digest : Str → Str) (sqlSchemaOk : Bool)
    (bodyErr : Option Str) (st : MigState) (tid : UUID) (mig : Migration) :
    Except Str MigState :=
  if isMigrationApplied st tid mig.version then .ok st
  else if !sqlSchemaOk then .error "Tenant schema does not exist".data
  else
    match bodyErr with
    | some e => .error e
    | none =>
      .ok { ledger := st.ledger
              ++ [⟨tid, mig.version, mig.name, mig.rollbackSQL, digest mig.sql⟩]
            execed := st.execed
              ++ [(mig.sql, [sqlSchemaName tid, "public".data])] }

/-- `MigrationManager.ApplyMigration`: validate the tenant schema, check
the ledger (skip with success if already applied), then call
`apply_tenant_migration`; a failure of the SQL call is wrapped as
`"migration failed: ..."` and leaves the state unchanged. -/
def applyMigration (env : MigEnv) (digest : Str → Str) (st : MigState)
    (tid : UUID) (mig : Migration) : Except Str Unit × MigState :=
  if !env.validateOk then
    (.error ("tenant schema does not exist for tenant ".data ++ uuidString tid),
      st)
  else if isMigrationApplied st tid mig.version then (.ok (), st)
  else
    match applyTenantMigrationSQL digest env.sqlSchemaOk env.bodyErr st tid mig with
    | .error e => (.error (wrapf "migration failed".data e), st)
    | .ok st2 => (.ok (), st2)

/-- The PL/pgSQL function `rollback_tenant_migration`, atomic like the
apply function: look up the recorded rollback SQL (raise if `NULL`),
execute it with the search path set to `'tenant_' || uuid` and `public`,
and delete the `(tenant, version)` ledger row. -/
def rollbackTenantMigrationSQL (rbErr : Option Str) (st : MigState)
    (tid : UUID) (v : Str) : Except Str MigState :=
  match st.ledger.find? (fun r => decide (r.tenant = tid) && decide (r.version = v)) with
  | none => .error "No rollback SQL found".data
  | some row =>
    match row.rollback with
    | none => .error "No rollback SQL found".data
    | some rsql =>
      match rbErr with
      | some e => .error e
      | none =>
        .ok { ledger := st.ledger.filter
                (fun r => !(decide (r.tenant = tid) && decide (r.version = v)))
              execed := st.execed ++ [(rsql, [sqlSchemaName tid, "public".data])] }

/-- `MigrationManager.RollbackMigration`: if `(tenant, version)` is not in
the ledger, succeed with nothing to roll back; otherwise call
`rollback_tenant_migration`, wrapping a failure as
`"rollback failed: ..."` with the state unchanged. -/
def rollbackMigration (rbErr : Option Str) (st : MigState) (tid : UUID)
    (v : Str) : Except Str Unit × MigState :=
  if !isMigrationApplied st tid v then (.ok (), st)
  else
    match rollbackTenantMigrationSQL rbErr st tid v with
    | .error e => (.error (wrapf "rollback failed".data e), st)
    | .ok st2 => (.ok (), st2)

/-- C6: `ApplyMigration` is idempotent per `(tenant, version)` (given the
schema-existence checks pass): a ledger-recorded pair returns no-op
success without touching the state, and applying a fresh migration twice
executes the body exactly once, leaving exactly one `(T, v)` ledger
row. -/
theorem c6_applyMigration_idempotent (env : MigEnv) (digest : Str → Str)
    (st : MigState) (tid : UUID) (mig : Migration)
    (hval : env.validateOk = true) (hschema : env.sqlSchemaOk = true)
    (hbody : env.bodyErr = none) :
    (isMigrationApplied st tid mig.version = true →
      applyMigration env digest st tid mig = (.ok (), st)) ∧
    (isMigrationApplied st tid mig.version = false →
      ∀ st1, applyMigration env digest st tid mig = (.ok (), st1) →
        applyMigration env digest st1 tid mig = (.ok (), st1) ∧
        countRows st1 tid mig.version = 1 ∧
        st1.execed = st.execed ++ [(mig.sql, [sqlSchemaName tid, "public".data])]) := by
  constructor
  · intro happ
    unfold applyMigration
    rw [hval]
    simp only [Bool.not_true, Bool.false_eq_true, if_false]
    rw [happ]
    simp
  · intro hnot st1 h1
    unfold applyMigration applyTenantMigrationSQL at h1
    rw [hval, hnot, hschema, hbody] at h1
    simp only [Bool.not_true, Bool.false_eq_true, if_false, Prod.mk.injEq,
      Except.ok.injEq, true_and] at h1
    subst h1
    refine ⟨?_, ?_, rfl⟩
    · unfold applyMigration
      rw [hval]
      simp only [Bool.not_true, Bool.false_eq_true, if_false]
      have happ1 : isMigrationApplied
          { ledger := st.ledger
              ++ [⟨tid, mig.version, mig.name, mig.rollbackSQL, digest mig.sql⟩]
            execed := st.execed
              ++ [(mig.sql, [sqlSchemaName tid, "public".data])] }
          tid mig.version = true := by
        unfold isMigrationApplied
        rw [List.any_append]
        simp
      rw [happ1]
      simp
    · unfold countRows
      simp only [List.filter_append]
      have hfil : st.ledger.filter
          (fun r => decide (r.tenant = tid) && decide (r.version = mig.version))
          = [] := by
        rw [List.filter_eq_nil]
        unfold isMigrationApplied at hnot
        rw [List.any_eq_false] at hnot
        exact hnot
      rw [hfil]
      simp

/-- A concrete migration used in witnesses. -/
def migA : Migration :=
  ⟨"001".data, "init".data, "CREATE TABLE x ()".data,
    some "DROP TABLE x".data⟩

/-- The state after applying `migA` to tenant `uuidZero` on an empty
ledger with the identity digest. -/
def migStA : MigState :=
  { ledger := [⟨uuidZero, "001".data, "init".data, some "DROP TABLE x".data,
      "CREATE TABLE x ()".data⟩]
    execed := [("CREATE TABLE x ()".data, [sqlSchemaName uuidZero, "public".data])] }

/-- Witness for C6: a concrete double application. -/
theorem c6_witness :
    applyMigration ⟨true, true, none⟩ (fun s => s) migStA uuidZero migA
      = (.ok (), migStA) ∧
    countRows migStA uuidZero migA.version = 1 := by
  have h := (c6_applyMigration_idempotent ⟨true, true, none⟩ (fun s => s)
    ⟨[], []⟩ uuidZero migA rfl rfl rfl).2 (by decide) migStA (by rfl)
  exact ⟨h.1, h.2.1⟩

/-- The state `rollback_tenant_migration` leaves on success: the
`(tenant, version)` rows deleted and the rollback SQL executed scoped to
the SQL-layer schema name. -/
def rolledBack (st : MigState) (tid : UUID) (v : Str) (rsql : Str) : MigState :=
  { ledger := st.ledger.filter
      (fun r => !(decide (r.tenant = tid) && decide (r.version = v)))
    execed := st.execed ++ [(rsql, [sqlSchemaName tid, "public".data])] }

/-- C7: `RollbackMigration` on a ledger entry with no recorded rollback
SQL fails with zero side effects (no statement executed, no row
deleted); on an entry with recorded rollback SQL it executes that SQL
with the search path scoped to the tenant schema name the SQL layer
computes, and deletes the `(tenant, version)` ledger row, atomically in
one call. -/
theorem c7_rollback_requires_recorded_sql (rbErr : Option Str)
    (st : MigState) (tid : UUID) (v : Str) :
    (∀ row, st.ledger.find?
        (fun r => decide (r.tenant = tid) && decide (r.version = v)) = some row →
      row.rollback = none →
      rollbackMigration rbErr st tid v
        = (.error (wrapf "rollback failed".data "No rollback SQL found".data), st)) ∧
    (∀ row rsql, st.ledger.find?
        (fun r => decide (r.tenant = tid) && decide (r.version = v)) = some row →
      row.rollback = some rsql → rbErr = none →
      rollbackMigration rbErr st tid v = (.ok (), rolledBack st tid v rsql) ∧
      isMigrationApplied (rolledBack st tid v rsql) tid v = false) := by
  have happ : ∀ row, st.ledger.find?
      (fun r => decide (r.tenant = tid) && decide (r.version = v)) = some row →
      isMigrationApplied st tid v = true := by
    intro row hf
    have hpred := List.find?_some
      (p := fun (r : LedgerRow) => decide (r.tenant = tid) && decide (r.version = v)) hf
    exact List.any_eq_true.mpr ⟨row, List.mem_of_find?_eq_some hf, hpred⟩
  constructor
  · intro row hf hrb
    unfold rollbackMigration
    rw [happ row hf]
    simp only [Bool.not_true, Bool.false_eq_true, if_false]
    unfold rollbackTenantMigrationSQL
    rw [hf]
    simp only []
    rw [hrb]
  · intro row rsql hf hrb hrberr
    refine ⟨?_, ?_⟩
    · unfold rollbackMigration
      rw [happ row hf]
      simp only [Bool.not_true, Bool.false_eq_true, if_false]
      unfold rollbackTenantMigrationSQL
      rw [hf]
      simp only []
      rw [hrb]
      simp only []
      rw [hrberr]
      rfl
    · unfold isMigrationApplied rolledBack
      rw [List.any_eq_false]
      intro r hr
      have hfl := List.of_mem_filter hr
      simp only [Bool.not_eq_true'] at hfl
      simp [hfl]

/-- A ledger state whose only entry records no rollback SQL. -/
def migStNoRb : MigState :=
  { ledger := [⟨uuidZero, "001".data, "init".data, none, "x".data⟩]
    execed := [] }

/-- Witness for C7: both branches at concrete ledgers. -/
theorem c7_witness :
    rollbackMigration none migStNoRb uuidZero "001".data
      = (.error (wrapf "rollback failed".data "No rollback SQL found".data),
          migStNoRb) ∧
    rollbackMigration none migStA uuidZero "001".data
      = (.ok (), rolledBack migStA uuidZero "001".data "DROP TABLE x".data) :=
  ⟨(c7_rollback_requires_recorded_sql none migStNoRb uuidZero "001".data).1
      ⟨uuidZero, "001".data, "init".data, none, "x".data⟩ (by decide) rfl,
   ((c7_rollback_requires_recorded_sql none migStA uuidZero "001".data).2
      ⟨uuidZero, "001".data, "init".data, some "DROP TABLE x".data,
        "CREATE TABLE x ()".data⟩ "DROP TABLE x".data (by decide) rfl rfl).1⟩

/-! ## Concurrent isolation of `WithTenantTx` (claim C1)

An interleaving model of N concurrent `WithTenantTx` calls, one per
tenant, each on its own exclusively checked-out pooled connection (as
`db.Conn` guarantees). Each unit of work follows the program order of
`WithTenantTx` with a caller function that inserts one uniquely tagged
row and then reads back all visible rows: acquire, begin,
`SET LOCAL search_path`, insert, read, commit, release. A scheduler
interleaves the units arbitrarily, one atomic database step at a
time. Rows are tags stored per namespace; an unqualified
statement resolves to the first schema on the connection's effective
search path in which the test table exists (the table exists in every
tenant namespace and not in `public`). Reads deliberately see even
uncommitted rows of other units, making the isolation statement
stronger than MVCC would require. -/

/-- One unit of work: its program counter (0 acquire, 1 begin, 2 set
local, 3 insert, 4 read, 5 commit, 6 release, 7 done) and the rows its
read returned. -/
structure UnitState where
  pc : Nat
  readResult : Option (List Nat)
deriving DecidableEq

/-- One physical connection: session search path, whether a transaction
is open, and the transaction-local search path set by `SET LOCAL` (which
disappears at commit). -/
structure ConnState where
  sessionPath : List Str
  inTx : Bool
  txPath : Option (List Str)
deriving DecidableEq

/-- Global state: per-unit program state, per-unit exclusive connection,
and the rows of the test table in each namespace. -/
structure World (N : Nat) where
  units : Fin N → UnitState
  conns : Fin N → ConnState
  schemas : Str → List Nat

/-- The search path in effect on a connection: the transaction-local one
inside a transaction when set, the session one otherwise. -/
def effPath (c : ConnState) : List Str :=
  if c.inTx then c.txPath.getD c.sessionPath else c.sessionPath

/-- The tenant schema name of unit `i`. -/
def nm {N : Nat} (tenants : Fin N → UUID) (i : Fin N) : Str :=
  getSchemaName defaultPre (tenants i)

/-- Namespaces in which the test table exists: every tenant namespace,
not `public`. -/
def hasTable {N : Nat} (tenants : Fin N → UUID) (s : Str) : Bool :=
  (List.ofFn fun j => nm tenants j).contains s

/-- The rows an unqualified read on connection `c` returns. -/
def readView {N : Nat} (tenants : Fin N → UUID) (w : World N)
    (c : ConnState) : List Nat :=
  match (effPath c).find? (hasTable tenants) with
  | some sc => w.schemas sc
  | none => []

/-- One atomic step of unit `j` (a no-op once the unit is done). -/
def step {N : Nat} (tenants : Fin N → UUID) (w : World N) (j : Fin N) :
    World N :=
  let u := w.units j
  let c := w.conns j
  if u.pc = 0 then
    { w with units := Function.update w.units j { u with pc := 1 } }
  else if u.pc = 1 then
    { w with units := Function.update w.units j { u with pc := 2 }
             conns := Function.update w.conns j
               { c with inTx := true, txPath := none } }
  else if u.pc = 2 then
    { w with units := Function.update w.units j { u with pc := 3 }
             conns := Function.update w.conns j
               { c with txPath := some [nm tenants j, "public".data] } }
  else if u.pc = 3 then
    { w with units := Function.update w.units j { u with pc := 4 }
             schemas := fun s =>
               if (effPath c).find? (hasTable tenants) = some s then
                 w.schemas s ++ [j.val]
               else w.schemas s }
  else if u.pc = 4 then
    { w with units := Function.update w.units j
               ⟨5, some (readView tenants w c)⟩ }
  else if u.pc = 5 then
    { w with units := Function.update w.units j { u with pc := 6 }
             conns := Function.update w.conns j
               { c with inTx := false, txPath := none } }
  else if u.pc = 6 then
    { w with units := Function.update w.units j { u with pc := 7 } }
  else w

/-- The initial world: all units at acquire, all connections idle with
the default session path, all namespaces empty of tagged rows. -/
def w0 (N : Nat) : World N :=
  { units := fun _ => ⟨0, none⟩
    conns := fun _ => ⟨["public".data], false, none⟩
    schemas := fun _ => [] }

/-- Run a schedule (an arbitrary interleaving of unit steps). -/
def run {N : Nat} (tenants : Fin N → UUID) (sched : List (Fin N)) : World N :=
  sched.foldl (step tenants) (w0 N)

/-- The interleaving invariant: (1) tenant `i`'s namespace holds exactly
its own tag once inserted and nothing before; (2) non-tenant namespaces
(such as `public`) never hold tags; (3) between `SET LOCAL` and commit a
unit's connection carries the transaction-local path
`[schema(T), public]`; (4) the read result is exactly the unit's own tag
once read. -/
def inv {N : Nat} (tenants : Fin N → UUID) (w : World N) : Prop :=
  (∀ i, w.schemas (nm tenants i)
    = if 4 ≤ (w.units i).pc then [i.val] else []) ∧
  (∀ s, (∀ i, s ≠ nm tenants i) → w.schemas s = []) ∧
  (∀ i, 2 ≤ (w.units i).pc → (w.units i).pc ≤ 5 →
    (w.conns i).inTx = true) ∧
  (∀ i, 3 ≤ (w.units i).pc → (w.units i).pc ≤ 5 →
    (w.conns i).txPath = some [nm tenants i, "public".data]) ∧
  (∀ i, (w.units i).readResult
    = if 5 ≤ (w.units i).pc then some [i.val] else none)

theorem effPath_tx {c : ConnState} {p : List Str} (hin : c.inTx = true)
    (htp : c.txPath = some p) : effPath c = p := by
  unfold effPath
  rw [hin, htp]
  simp

theorem find_nm {N : Nat} (tenants : Fin N → UUID) (i : Fin N) :
    ([nm tenants i, "public".data] : List Str).find? (hasTable tenants)
      = some (nm tenants i) := by
  apply List.find?_cons_of_pos
  unfold hasTable
  have hmem : nm tenants i ∈ List.ofFn (fun j => nm tenants j) := by
    rw [List.mem_ofFn]
    exact ⟨i, rfl⟩
  simpa using hmem

theorem inv_w0 {N : Nat} (tenants : Fin N → UUID) : inv tenants (w0 N) := by
  refine ⟨fun i => by simp [w0], fun s hs => rfl, fun i h2 => by simp [w0] at h2,
    fun i h3 => by simp [w0] at h3, fun i => by simp [w0]⟩

theorem inv_step {N : Nat} {tenants : Fin N → UUID}
    (hinj : Function.Injective tenants) {w : World N} (j : Fin N)
    (h : inv tenants w) : inv tenants (step tenants w j) := by
  obtain ⟨h1, h2, h3, h4, h5⟩ := h
  have hnm : ∀ i1 i2 : Fin N, nm tenants i1 = nm tenants i2 → i1 = i2 :=
    fun i1 i2 hh => hinj (getSchemaName_injective defaultPre hh)
  unfold step
  simp only []
  split_ifs with hp0 hp1 hp2 hp3 hp4 hp5 hp6
  · -- acquire: pc 0 → 1
    refine ⟨?_, h2, ?_, ?_, ?_⟩
    · intro i
      rcases eq_or_ne i j with rfl | hne
      · simp only [Function.update_same]
        rw [h1 i, hp0]
        simp
      · simp only [Function.update_noteq hne]
        exact h1 i
    · intro i hge hle
      rcases eq_or_ne i j with rfl | hne
      · simp at hge
      · simp only [Function.update_noteq hne] at hge hle
        exact h3 i hge hle
    · intro i hge hle
      rcases eq_or_ne i j with rfl | hne
      · simp at hge
      · simp only [Function.update_noteq hne] at hge hle
        exact h4 i hge hle
    · intro i
      rcases eq_or_ne i j with rfl | hne
      · simp only [Function.update_same]
        rw [show ({ w.units i with pc := 1 } : UnitState).readResult
            = (w.units i).readResult from rfl, h5 i, hp0]
        simp
      · simp only [Function.update_noteq hne]
        exact h5 i
  · -- begin: pc 1 → 2, transaction opened
    refine ⟨?_, h2, ?_, ?_, ?_⟩
    · intro i
      rcases eq_or_ne i j with rfl | hne
      · simp only [Function.update_same]
        rw [h1 i, hp1]
        simp
      · simp only [Function.update_noteq hne]
        exact h1 i
    · intro i hge hle
      rcases eq_or_ne i j with rfl | hne
      · simp only [Function.update_same]
      · simp only [Function.update_noteq hne] at hge hle ⊢
        exact h3 i hge hle
    · intro i hge hle
      rcases eq_or_ne i j with rfl | hne
      · simp at hge
      · simp only [Function.update_noteq hne] at hge hle ⊢
        exact h4 i hge hle
    · intro i
      rcases eq_or_ne i j with rfl | hne
      · simp only [Function.update_same]
        rw [show ({ w.units i with pc := 2 } : UnitState).readResult
            = (w.units i).readResult from rfl, h5 i, hp1]
        simp
      · simp only [Function.update_noteq hne]
        exact h5 i
  · -- set local: pc 2 → 3, transaction-local path installed
    refine ⟨?_, h2, ?_, ?_, ?_⟩
    · intro i
      rcases eq_or_ne i j with rfl | hne
      · simp only [Function.update_same]
        rw [h1 i, hp2]
        simp
      · simp only [Function.update_noteq hne]
        exact h1 i
    · intro i hge hle
      rcases eq_or_ne i j with rfl | hne
      · simp only [Function.update_same]
        exact h3 i (by rw [hp2]) (by rw [hp2]; norm_num)
      · simp only [Function.update_noteq hne] at hge hle ⊢
        exact h3 i hge hle
    · intro i hge hle
      rcases eq_or_ne i j with rfl | hne
      · simp only [Function.update_same]
      · simp only [Function.update_noteq hne] at hge hle ⊢
        exact h4 i hge hle
    · intro i
      rcases eq_or_ne i j with rfl | hne
      · simp only [Function.update_same]
        rw [show ({ w.units i with pc := 3 } : UnitState).readResult
            = (w.units i).readResult from rfl, h5 i, hp2]
        simp
      · simp only [Function.update_noteq hne]
        exact h5 i
  · -- insert: pc 3 → 4, the tagged row goes into schema(T_j)
    have hin : (w.conns j).inTx = true :=
      h3 j (by rw [hp3]; norm_num) (by rw [hp3]; norm_num)
    have htp : (w.conns j).txPath = some [nm tenants j, "public".data] :=
      h4 j (by rw [hp3]) (by rw [hp3]; norm_num)
    have hfind : (effPath (w.conns j)).find? (hasTable tenants)
        = some (nm tenants j) := by
      rw [effPath_tx hin htp]
      exact find_nm tenants j
    refine ⟨?_, ?_, ?_, ?_, ?_⟩
    · intro i
      rcases eq_or_ne i j with rfl | hne
      · simp only [Function.update_same]
        rw [hfind]
        simp only [Option.some.injEq]
        rw [h1 i, hp3]
        simp
      · simp only [Function.update_noteq hne]
        rw [hfind]
        simp only [Option.some.injEq]
        rw [if_neg (fun hh => hne (hnm i j hh.symm))]
        exact h1 i
    · intro s hs
      simp only []
      rw [hfind]
      simp only [Option.some.injEq]
      rw [if_neg (fun hh => (hs j) hh.symm)]
      exact h2 s hs
    · intro i hge hle
      rcases eq_or_ne i j with rfl | hne
      · exact hin
      · simp only [Function.update_noteq hne] at hge hle
        exact h3 i hge hle
    · intro i hge hle
      rcases eq_or_ne i j with rfl | hne
      · exact htp
      · simp only [Function.update_noteq hne] at hge hle
        exact h4 i hge hle
    · intro i
      rcases eq_or_ne i j with rfl | hne
      · simp only [Function.update_same]
        rw [show ({ w.units i with pc := 4 } : UnitState).readResult
            = (w.units i).readResult from rfl, h5 i, hp3]
        simp
      · simp only [Function.update_noteq hne]
        exact h5 i
  · -- read: pc 4 → 5, the read sees exactly the unit's own row
    have hin : (w.conns j).inTx = true :=
      h3 j (by rw [hp4]; norm_num) (by rw [hp4]; norm_num)
    have htp : (w.conns j).txPath = some [nm tenants j, "public".data] :=
      h4 j (by rw [hp4]; norm_num) (by rw [hp4]; norm_num)
    have hfind : (effPath (w.conns j)).find? (hasTable tenants)
        = some (nm tenants j) := by
      rw [effPath_tx hin htp]
      exact find_nm tenants j
    have hview : readView tenants w (w.conns j) = [j.val] := by
      unfold readView
      rw [hfind]
      simp only []
      rw [h1 j, hp4]
      simp
    refine ⟨?_, h2, ?_, ?_, ?_⟩
    · intro i
      rcases eq_or_ne i j with rfl | hne
      · simp only [Function.update_same]
        rw [h1 i, hp4]
        simp
      · simp only [Function.update_noteq hne]
        exact h1 i
    · intro i hge hle
      rcases eq_or_ne i j with rfl | hne
      · exact h3 i (by rw [hp4]; norm_num) (by rw [hp4]; norm_num)
      · simp only [Function.update_noteq hne] at hge hle
        exact h3 i hge hle
    · intro i hge hle
      rcases eq_or_ne i j with rfl | hne
      · exact h4 i (by rw [hp4]; norm_num) (by rw [hp4]; norm_num)
      · simp only [Function.update_noteq hne] at hge hle
        exact h4 i hge hle
    · intro i
      rcases eq_or_ne i j with rfl | hne
      · simp only [Function.update_same]
        rw [hview]
        simp
      · simp only [Function.update_noteq hne]
        exact h5 i
  · -- commit: pc 5 → 6, transaction-local path reverts
    refine ⟨?_, h2, ?_, ?_, ?_⟩
    · intro i
      rcases eq_or_ne i j with rfl | hne
      · simp only [Function.update_same]
        rw [h1 i, hp5]
        simp
      · simp only [Function.update_noteq hne]
        exact h1 i
    · intro i hge hle
      rcases eq_or_ne i j with rfl | hne
      · simp at hle
      · simp only [Function.update_noteq hne] at hge hle ⊢
        exact h3 i hge hle
    · intro i hge hle
      rcases eq_or_ne i j with rfl | hne
      · simp at hle
      · simp only [Function.update_noteq hne] at hge hle ⊢
        exact h4 i hge hle
    · intro i
      rcases eq_or_ne i j with rfl | hne
      · simp only [Function.update_same]
        rw [show ({ w.units i with pc := 6 } : UnitState).readResult
            = (w.units i).readResult from rfl, h5 i, hp5]
        simp
      · simp only [Function.update_noteq hne]
        exact h5 i
  · -- release: pc 6 → 7
    refine ⟨?_, h2, ?_, ?_, ?_⟩
    · intro i
      rcases eq_or_ne i j with rfl | hne
      · simp only [Function.update_same]
        rw [h1 i, hp6]
        simp
      · simp only [Function.update_noteq hne]
        exact h1 i
    · intro i hge hle
      rcases eq_or_ne i j with rfl | hne
      · simp at hle
      · simp only [Function.update_noteq hne] at hge hle
        exact h3 i hge hle
    · intro i hge hle
      rcases eq_or_ne i j with rfl | hne
      · simp at hle
      · simp only [Function.update_noteq hne] at hge hle
        exact h4 i hge hle
    · intro i
      rcases eq_or_ne i j with rfl | hne
      · simp only [Function.update_same]
        rw [show ({ w.units i with pc := 7 } : UnitState).readResult
            = (w.units i).readResult from rfl, h5 i, hp6]
        simp
      · simp only [Function.update_noteq hne]
        exact h5 i
  · -- done: no-op
    exact ⟨h1, h2, h3, h4, h5⟩

theorem inv_run {N : Nat} {tenants : Fin N → UUID}
    (hinj : Function.Injective tenants) (sched : List (Fin N)) :
    inv tenants (run tenants sched) := by
  unfold run
  have hfold : ∀ (l : List (Fin N)) (w : World N), inv tenants w →
      inv tenants (l.foldl (step tenants) w) := by
    intro l
    induction l with
    | nil => intro w hw; exact hw
    | cons a l ih =>
      intro w hw
      exact ih _ (inv_step hinj a hw)
  exact hfold sched _ (inv_w0 tenants)

/-- C1: for any number `N ≥ 5` of concurrent `WithTenantTx` units of work
for distinct tenants, under every interleaving: (1) for the full
duration of each unit's transaction-scoped section (from `SET LOCAL`
through commit) its connection's effective namespace resolution order is
exactly `[schema(T), public]`; and (2) in every completed run, each
unit's read returns exactly its own tagged row and zero rows tagged for
any other tenant. -/
theorem c1_withTenantTx_isolation (N : Nat) (hN : 5 ≤ N)
    (tenants : Fin N → UUID) (hinj : Function.Injective tenants) :
    (∀ (sched : List (Fin N)) (i : Fin N),
      3 ≤ ((run tenants sched).units i).pc →
      ((run tenants sched).units i).pc ≤ 5 →
      effPath ((run tenants sched).conns i)
        = [getSchemaName defaultPre (tenants i), "public".data]) ∧
    (∀ (sched : List (Fin N)),
      (∀ i, ((run tenants sched).units i).pc = 7) →
      ∀ i, ((run tenants sched).units i).readResult = some [i.val]) := by
  constructor
  · intro sched i hge hle
    obtain ⟨h1, h2, h3, h4, h5⟩ := inv_run hinj sched
    exact effPath_tx (h3 i (by omega) hle) (h4 i hge hle)
  · intro sched hdone i
    obtain ⟨h1, h2, h3, h4, h5⟩ := inv_run hinj sched
    rw [h5 i, hdone i]
    simp

/-- Five concrete distinct tenant IDs. -/
def tenants5 : Fin 5 → UUID := fun i =>
  ⟨[⟨i.val, by omega⟩, 0, 0, 0, 0, 0, 0, 0, 0, 0, 0, 0, 0, 0, 0, 0], rfl⟩

/-- A round-robin interleaving of the five units' 7 steps each. -/
def sched5 : List (Fin 5) :=
  [0, 1, 2, 3, 4, 0, 1, 2, 3, 4, 0, 1, 2, 3, 4, 0, 1, 2, 3, 4,
   0, 1, 2, 3, 4, 0, 1, 2, 3, 4, 0, 1, 2, 3, 4]

/-- Witness for C1: five concurrent tenants under a fully interleaved
round-robin schedule each read back exactly their own row. -/
theorem c1_witness :
    ((run tenants5 sched5).units 0).readResult = some [0] ∧
    ((run tenants5 sched5).units 1).readResult = some [1] ∧
    ((run tenants5 sched5).units 2).readResult = some [2] ∧
    ((run tenants5 sched5).units 3).readResult = some [3] ∧
    ((run tenants5 sched5).units 4).readResult = some [4] := by
  have h := (c1_withTenantTx_isolation 5 (by norm_num) tenants5 (by decide)).2
    sched5 (by decide)
  exact ⟨h 0, h 1, h 2, h 3, h 4⟩
